import Mathlib

/-!
Verification of the scoring / model-selection engine of
`src/server/ml/train_and_predict.py`.

Modelling conventions (shallow embedding):
* A pandas numeric column (after `pd.to_numeric(..., errors="coerce")`) is a
  `List (Option ℚ)`: `none` is a missing value (`NaN`), rationals stand for
  the float values (all arithmetic in the scorers is exact on the inputs the
  claims use).
* A DataFrame of one entity type is a structure whose fields are the candidate
  columns; a field is `none` when the column is absent from the table.
* Scores (`pd.Series` of floats with no `NaN`) are `List ℚ`.
-/

namespace KdsMl

/-- A missing-value numeric column: one entry per row, `none` = NaN. -/
abbrev NumCol := List (Option ℚ)

/-- The non-missing values of a column (`s.dropna()` order-preserving). -/
def colVals (s : NumCol) : List ℚ := s.filterMap id

/-- Kernel-reducible binary minimum on `ℚ` (agrees with `min`). -/
def qmin (a b : ℚ) : ℚ := if a ≤ b then a else b

/-- Kernel-reducible binary maximum on `ℚ` (agrees with `max`). -/
def qmax (a b : ℚ) : ℚ := if a ≤ b then b else a

/-- Pandas `s.min()`: minimum over non-missing values, `none` when the
column is entirely missing (pandas `NaN` result). -/
def colMin (s : NumCol) : Option ℚ :=
  match colVals s with
  | [] => none
  | v :: vs => some (vs.foldl qmin v)

/-- Pandas `s.max()`, `none` when entirely missing. -/
def colMax (s : NumCol) : Option ℚ :=
  match colVals s with
  | [] => none
  | v :: vs => some (vs.foldl qmax v)

/-- Embedding of `min_max_series` (source lines 185-192): if every value is
missing, or min and max are undefined or equal, every row maps to `0.0`;
otherwise each present value `x` maps to `(x - mn) / (mx - mn)` and missing
values propagate (`NaN` arithmetic). -/
def min_max_series (s : NumCol) : NumCol :=
  match colMin s, colMax s with
  | some mn, some mx =>
      if mx = mn then s.map (fun _ => some 0)
      else s.map (fun o => o.map (fun x => (x - mn) / (mx - mn)))
  | _, _ => s.map (fun _ => some 0)

/-- The pandas `.clip(0, 100)` applied after scaling to percent. -/
def clip0100 (x : ℚ) : ℚ := qmin (qmax x 0) 100

/-- Value of a component series at row `i` after the `stacked.fillna(0.0)`
step: a missing entry (and an out-of-range index) contributes `0.0`. -/
def valAt (c : NumCol) (i : ℕ) : ℚ := (c.getD i none).getD 0

/-- Series inversion `1 - s`: inverts a lower-is-better normalized signal,
propagating missing values. -/
def invertSeries (c : NumCol) : NumCol := c.map (Option.map (fun x => 1 - x))

/-- Pandas `.fillna(0.0)` on a numeric series. -/
def fillna0 (c : NumCol) : NumCol := c.map (fun o => some (o.getD 0))

/-- Pandas `.fillna(False).astype(float)` on a boolean series. -/
def boolAsFloat (c : List (Option Bool)) : NumCol :=
  c.map (fun o => some (if o.getD false then (1 : ℚ) else 0))

/-- One weighted component: its per-row series and its constant weight. -/
abbrev Component := NumCol × ℚ

/-- An optional component block: candidate column absent contributes nothing
to the component list (and hence nothing to the weight denominator). -/
def optComp {γ : Type} (col : Option γ) (t : γ → NumCol) (w : ℚ) :
    List Component :=
  match col with
  | some c => [(t c, w)]
  | none => []

/-- One row of the weighted-average step of the deterministic scorers:
`stacked.fillna(0.0).multiply(weights).sum(axis=1) / total_weight * 100`,
clipped to `[0, 100]`. -/
def combineRow (comps : List Component) (i : ℕ) : ℚ :=
  clip0100 (comps.foldl (fun acc p => acc + p.2 * valAt p.1 i) 0 /
    comps.foldl (fun acc p => acc + p.2) 0 * 100)

/-- The weighted-average step over all `n` rows of the working table. -/
def combineScores (n : ℕ) (comps : List Component) : List ℚ :=
  (List.range n).map (combineRow comps)

/-- The firms Working Table (`firmalar` rows after certificate-feature
extraction). Each candidate column is `none` when absent from the table;
numeric columns are modeled after `pd.to_numeric(..., errors="coerce")`
(non-numeric raw values become missing). `label` is the column picked by the
label-availability check (`gercek_getiri` / `isbirligi_getirisi`), when one
is present. -/
structure Firms where
  n : ℕ
  karbon_ayak_izi : Option NumCol
  su_tuketimi : Option NumCol
  atik_miktari : Option NumCol
  geri_donusum_orani : Option NumCol
  certificate_count : Option NumCol
  has_GOTS : Option (List (Option Bool))
  has_OEKO_TEX : Option (List (Option Bool))
  has_ISO_14001 : Option (List (Option Bool))
  ciro : Option NumCol
  gorunurluk_orani : Option NumCol
  magaza_sayisi : Option NumCol
  label : Option NumCol

/-- The component list built by `compute_sustainability_score`
(source lines 202-234), in source order with the source's weights. -/
def sustainabilityComponents (df : Firms) : List Component :=
  optComp df.karbon_ayak_izi (fun c => invertSeries (min_max_series c)) 1.5 ++
  optComp df.su_tuketimi (fun c => invertSeries (min_max_series c)) 1.0 ++
  optComp df.atik_miktari (fun c => invertSeries (min_max_series c)) 1.0 ++
  optComp df.geri_donusum_orani (fun c => min_max_series c) 1.2 ++
  optComp df.certificate_count (fun c => min_max_series (fillna0 c)) 0.8 ++
  optComp df.has_GOTS (fun c => boolAsFloat c) 0.6 ++
  optComp df.has_OEKO_TEX (fun c => boolAsFloat c) 0.4 ++
  optComp df.has_ISO_14001 (fun c => boolAsFloat c) 0.5

/-- Embedding of `compute_sustainability_score` (source lines 195-241). -/
def compute_sustainability_score (df : Firms) : List ℚ :=
  if sustainabilityComponents df = [] then List.replicate df.n 0
  else combineScores df.n (sustainabilityComponents df)

/-- The component list built by `compute_tahmini_getiri_score`
(source lines 249-268): the three optional revenue-side signals plus the
always-present `sustainability_score / 100` signal. The passed score series
contains no missing values (its `.fillna(0.0)` is the identity here). -/
def tahminiComponents (df : Firms) (sust : List ℚ) : List Component :=
  optComp df.ciro (fun c => min_max_series (fillna0 c)) 2.0 ++
  optComp df.gorunurluk_orani (fun c => min_max_series (fillna0 c)) 1.5 ++
  optComp df.magaza_sayisi (fun c => min_max_series (fillna0 c)) 1.0 ++
  [(sust.map (fun x => some (x / 100)), 1.2)]

/-- Embedding of `compute_tahmini_getiri_score` (source lines 244-272): no
empty-component branch exists because the sustainability component is always
appended. -/
def compute_tahmini_getiri_score (df : Firms) (sust : List ℚ) : List ℚ :=
  combineScores df.n (tahminiComponents df sust)

/-- The entrepreneurs Working Table (`girisimciler` rows). `kurulma_tarihi`
is modeled as the age-in-days series that
`(pd.Timestamp.utcnow().normalize() - pd.to_datetime(col)).dt.days` yields
(unparseable dates become missing). `label` is the column picked by the
label-availability check (`gercek_uyum_puani` / `basari_puani`). -/
structure Girisimciler where
  n : ℕ
  kurulma_yili : Option NumCol
  kurulma_tarihi : Option NumCol
  kadin_calisan_sayisi : Option NumCol
  engelli_calisan_sayisi : Option NumCol
  talep_edilen_butce : Option NumCol
  label : Option NumCol

/-- The component list built by `compute_kriter_uyumluluk_puani`
(source lines 286-308). `cy` is `datetime.utcnow().year`; the recency signal
uses the founding year when that column exists, else the founding date, and
is inverted after normalization. -/
def kriterComponents (cy : ℚ) (g : Girisimciler) : List Component :=
  (match g.kurulma_yili with
   | some c =>
       [(invertSeries (min_max_series (c.map (Option.map (fun y => cy - y)))),
         1.2)]
   | none =>
       match g.kurulma_tarihi with
       | some ages => [(invertSeries (min_max_series ages), 1.2)]
       | none => []) ++
  optComp g.kadin_calisan_sayisi (fun c => min_max_series (fillna0 c)) 0.9 ++
  optComp g.engelli_calisan_sayisi (fun c => min_max_series (fillna0 c)) 0.9 ++
  optComp g.talep_edilen_butce (fun c => min_max_series (fillna0 c)) 0.6

/-- Embedding of `compute_kriter_uyumluluk_puani` (source lines 275-315). -/
def compute_kriter_uyumluluk_puani (cy : ℚ) (g : Girisimciler) : List ℚ :=
  if kriterComponents cy g = [] then List.replicate g.n 0
  else combineScores g.n (kriterComponents cy g)

/-- Modelled from the spec's words (§4.3): the weight denominator of the
sustainability score is the sum of the weights of exactly the candidate
signals present in the table. -/
def surdurulebilirlikSpecWeight (df : Firms) : ℚ :=
  df.karbon_ayak_izi.elim 0 (fun _ => 1.5) +
  df.su_tuketimi.elim 0 (fun _ => 1.0) +
  df.atik_miktari.elim 0 (fun _ => 1.0) +
  df.geri_donusum_orani.elim 0 (fun _ => 1.2) +
  df.certificate_count.elim 0 (fun _ => 0.8) +
  df.has_GOTS.elim 0 (fun _ => 0.6) +
  df.has_OEKO_TEX.elim 0 (fun _ => 0.4) +
  df.has_ISO_14001.elim 0 (fun _ => 0.5)

/-- Modelled from the spec's words (§4.3): the weighted sum over the present
sustainability signals at row `i` (inverted signals as `1 - normalized`). -/
def surdurulebilirlikSpecNum (df : Firms) (i : ℕ) : ℚ :=
  df.karbon_ayak_izi.elim 0
    (fun c => 1.5 * valAt (invertSeries (min_max_series c)) i) +
  df.su_tuketimi.elim 0
    (fun c => 1.0 * valAt (invertSeries (min_max_series c)) i) +
  df.atik_miktari.elim 0
    (fun c => 1.0 * valAt (invertSeries (min_max_series c)) i) +
  df.geri_donusum_orani.elim 0 (fun c => 1.2 * valAt (min_max_series c) i) +
  df.certificate_count.elim 0
    (fun c => 0.8 * valAt (min_max_series (fillna0 c)) i) +
  df.has_GOTS.elim 0 (fun c => 0.6 * valAt (boolAsFloat c) i) +
  df.has_OEKO_TEX.elim 0 (fun c => 0.4 * valAt (boolAsFloat c) i) +
  df.has_ISO_14001.elim 0 (fun c => 0.5 * valAt (boolAsFloat c) i)

/-- Modelled from the spec's words (§4.3): the sustainability score as the
weighted average over the present signals, re-normalized by the sum of the
present signals' weights, scaled to percent and clamped; `0.0` everywhere
when no candidate signal is present. -/
def surdurulebilirlikSpec (df : Firms) : List ℚ :=
  if df.karbon_ayak_izi = none ∧ df.su_tuketimi = none ∧
      df.atik_miktari = none ∧ df.geri_donusum_orani = none ∧
      df.certificate_count = none ∧ df.has_GOTS = none ∧
      df.has_OEKO_TEX = none ∧ df.has_ISO_14001 = none then
    List.replicate df.n 0
  else
    (List.range df.n).map
      (fun i =>
        clip0100
          (100 * surdurulebilirlikSpecNum df i / surdurulebilirlikSpecWeight df))

/-- Modelled from the spec's words (§4.3): present-signal weight sum of the
criteria-compliance score. The recency signal contributes its weight `1.2`
exactly when founding year or founding date is present. -/
def kriterSpecWeight (g : Girisimciler) : ℚ :=
  (match g.kurulma_yili, g.kurulma_tarihi with
   | some _, _ => 1.2
   | none, some _ => 1.2
   | none, none => 0) +
  g.kadin_calisan_sayisi.elim 0 (fun _ => 0.9) +
  g.engelli_calisan_sayisi.elim 0 (fun _ => 0.9) +
  g.talep_edilen_butce.elim 0 (fun _ => 0.6)

/-- Modelled from the spec's words (§4.3): weighted sum over the present
criteria-compliance signals at row `i`; the recency signal uses exactly one
of founding year and founding date, founding year taking precedence. -/
def kriterSpecNum (cy : ℚ) (g : Girisimciler) (i : ℕ) : ℚ :=
  (match g.kurulma_yili, g.kurulma_tarihi with
   | some c, _ =>
       1.2 * valAt
         (invertSeries (min_max_series (c.map (Option.map (fun y => cy - y))))) i
   | none, some ages => 1.2 * valAt (invertSeries (min_max_series ages)) i
   | none, none => 0) +
  g.kadin_calisan_sayisi.elim 0
    (fun c => 0.9 * valAt (min_max_series (fillna0 c)) i) +
  g.engelli_calisan_sayisi.elim 0
    (fun c => 0.9 * valAt (min_max_series (fillna0 c)) i) +
  g.talep_edilen_butce.elim 0
    (fun c => 0.6 * valAt (min_max_series (fillna0 c)) i)

/-- Modelled from the spec's words (§4.3): criteria-compliance score as a
weighted average re-normalized by the present signals' weights. -/
def kriterUyumlulukSpec (cy : ℚ) (g : Girisimciler) : List ℚ :=
  if g.kurulma_yili = none ∧ g.kurulma_tarihi = none ∧
      g.kadin_calisan_sayisi = none ∧ g.engelli_calisan_sayisi = none ∧
      g.talep_edilen_butce = none then
    List.replicate g.n 0
  else
    (List.range g.n).map
      (fun i => clip0100 (100 * kriterSpecNum cy g i / kriterSpecWeight g))

/-- A 2-row firms table with water and waste columns only. -/
def firmsSuAtik : Firms :=
  { n := 2, karbon_ayak_izi := none,
    su_tuketimi := some [some 10, some 20],
    atik_miktari := some [some 30, some 10],
    geri_donusum_orani := none, certificate_count := none, has_GOTS := none,
    has_OEKO_TEX := none, has_ISO_14001 := none, ciro := none,
    gorunurluk_orani := none, magaza_sayisi := none, label := none }

/-- Table `firmsSuAtik` with a constant carbon column added (its normalized signal
is degenerate, so after inversion it contributes the value `1` per row). -/
def firmsKarbonSuAtik : Firms :=
  { firmsSuAtik with karbon_ayak_izi := some [some 5, some 5] }

/-- Every candidate signal column of the firms table is absent. -/
def Firms.noSignalColumns (df : Firms) : Prop :=
  df.karbon_ayak_izi = none ∧ df.su_tuketimi = none ∧
  df.atik_miktari = none ∧ df.geri_donusum_orani = none ∧
  df.certificate_count = none ∧ df.has_GOTS = none ∧
  df.has_OEKO_TEX = none ∧ df.has_ISO_14001 = none ∧
  df.ciro = none ∧ df.gorunurluk_orani = none ∧ df.magaza_sayisi = none

/-- Every candidate signal column of the entrepreneurs table is absent. -/
def Girisimciler.noSignalColumns (g : Girisimciler) : Prop :=
  g.kurulma_yili = none ∧ g.kurulma_tarihi = none ∧
  g.kadin_calisan_sayisi = none ∧ g.engelli_calisan_sayisi = none ∧
  g.talep_edilen_butce = none

/-- A 2-row firms table whose only candidate column is `ciro = [10, 20]`. -/
def firmsCiroOnly : Firms :=
  { n := 2, karbon_ayak_izi := none, su_tuketimi := none, atik_miktari := none,
    geri_donusum_orani := none, certificate_count := none, has_GOTS := none,
    has_OEKO_TEX := none, has_ISO_14001 := none,
    ciro := some [some 10, some 20],
    gorunurluk_orani := none, magaza_sayisi := none, label := none }

/-- A 1-row firms table with every candidate column absent. -/
def firmsAllAbsent : Firms :=
  { n := 1, karbon_ayak_izi := none, su_tuketimi := none, atik_miktari := none,
    geri_donusum_orani := none, certificate_count := none, has_GOTS := none,
    has_OEKO_TEX := none, has_ISO_14001 := none, ciro := none,
    gorunurluk_orani := none, magaza_sayisi := none, label := none }

/-- A 2-row entrepreneurs table with only founding years `[2020, 2025]`. -/
def girYearsOnly : Girisimciler :=
  { n := 2, kurulma_yili := some [some 2020, some 2025],
    kurulma_tarihi := none, kadin_calisan_sayisi := none,
    engelli_calisan_sayisi := none, talep_edilen_butce := none, label := none }

/-- A 1-row entrepreneurs table with every candidate column absent. -/
def girAllAbsent : Girisimciler :=
  { n := 1, kurulma_yili := none, kurulma_tarihi := none,
    kadin_calisan_sayisi := none, engelli_calisan_sayisi := none,
    talep_edilen_butce := none, label := none }

/-- The evaluation record produced by the trainer (source lines 357-363). -/
structure RegMetrics where
  r2 : ℚ
  mae : ℚ
  rmse : ℚ
  trained_on : ℕ
  tested_on : ℕ
deriving DecidableEq

/-- The fitted scikit-learn pipeline for the firms table, abstracted: given
the working table and the coerced label column it produces the predictions
for every row and the evaluation metrics. The `< 5` guard of the trainer is
modeled explicitly; everything behind it (`train_test_split`, imputation,
scaling, `RandomForestRegressor`) is external library code represented by
this parameter. -/
structure FirmRegressor where
  run : Firms → NumCol → List ℚ × RegMetrics

/-- The fitted pipeline for the entrepreneurs table, abstracted likewise. -/
structure GirRegressor where
  run : Girisimciler → NumCol → List ℚ × RegMetrics

/-- Count `mask.sum()` for `mask = ~y.isna()`: the number of rows whose label
coerces to a number. -/
def labeledCount (t : NumCol) : ℕ := (colVals t).length

/-- Embedding of `train_regressor_and_predict` (source lines 319-366) on the
firms table: fewer than 5 labeled rows yields an all-missing prediction
series over the table's index and no metrics; otherwise the fitted pipeline
produces predictions for every row plus metrics. -/
def train_regressor_and_predict (ml : FirmRegressor) (df : Firms)
    (t : NumCol) : NumCol × Option RegMetrics :=
  if labeledCount t < 5 then (List.replicate df.n none, none)
  else ((ml.run df t).1.map some, some (ml.run df t).2)

/-- Embedding of `train_regressor_and_predict` applied to the entrepreneurs
table (source lines 549). -/
def train_regressor_and_predict_g (ml : GirRegressor) (g : Girisimciler)
    (t : NumCol) : NumCol × Option RegMetrics :=
  if labeledCount t < 5 then (List.replicate g.n none, none)
  else ((ml.run g t).1.map some, some (ml.run g t).2)

/-- The score columns that `process_firmalar` persists (source lines
457-494): the sustainability column is always the deterministic score; the
expected-return column comes from the trainer when a label column exists and
training succeeded, else from the deterministic scorer. -/
def processFirmalarScores (ml : FirmRegressor) (df : Firms) :
    List ℚ × NumCol :=
  (compute_sustainability_score df,
    match df.label with
    | none =>
        (compute_tahmini_getiri_score df
          (compute_sustainability_score df)).map some
    | some t =>
        match (train_regressor_and_predict ml df t).2 with
        | none =>
            (compute_tahmini_getiri_score df
              (compute_sustainability_score df)).map some
        | some _ => (train_regressor_and_predict ml df t).1)

/-- The score column that `process_girisimciler` persists (source lines
545-557). -/
def processGirisimcilerScores (cy : ℚ) (ml : GirRegressor)
    (g : Girisimciler) : NumCol :=
  match g.label with
  | none => (compute_kriter_uyumluluk_puani cy g).map some
  | some t =>
      match (train_regressor_and_predict_g ml g t).2 with
      | none => (compute_kriter_uyumluluk_puani cy g).map some
      | some _ => (train_regressor_and_predict_g ml g t).1

/-- A regressor stand-in that predicts `0` everywhere. -/
def mlZero : FirmRegressor :=
  ⟨fun df _ => (List.replicate df.n 0, ⟨0, 0, 0, 0, 0⟩)⟩

/-- A regressor stand-in that predicts `7` everywhere. -/
def mlSeven : FirmRegressor :=
  ⟨fun df _ => (List.replicate df.n 7, ⟨0, 0, 0, 0, 0⟩)⟩

/-- An entrepreneurs regressor stand-in that predicts `0` everywhere. -/
def mgZero : GirRegressor :=
  ⟨fun g _ => (List.replicate g.n 0, ⟨0, 0, 0, 0, 0⟩)⟩

/-- Table `firmsCiroOnly` with a label column holding one numeric value. -/
def firmsCiroLabeled : Firms :=
  { firmsCiroOnly with label := some [some 1, none] }

/-- A 5-row firms table whose rows all carry `has_GOTS = true` and a label
column with five numeric values (enough to train). -/
def firmsGotsLabeled : Firms :=
  { n := 5, karbon_ayak_izi := none, su_tuketimi := none, atik_miktari := none,
    geri_donusum_orani := none, certificate_count := none,
    has_GOTS := some (List.replicate 5 (some true)),
    has_OEKO_TEX := none, has_ISO_14001 := none, ciro := none,
    gorunurluk_orani := none, magaza_sayisi := none,
    label := some (List.replicate 5 (some 1)) }

/-- The spec's end-to-end scenario table: 6 firm rows, no label column,
`ciro = [10, 20, 30, 40, 50, 60]`, every other candidate column absent. -/
def firmsCiroSix : Firms :=
  { n := 6, karbon_ayak_izi := none, su_tuketimi := none, atik_miktari := none,
    geri_donusum_orani := none, certificate_count := none, has_GOTS := none,
    has_OEKO_TEX := none, has_ISO_14001 := none,
    ciro := some [some 10, some 20, some 30, some 40, some 50, some 60],
    gorunurluk_orani := none, magaza_sayisi := none, label := none }

/-- A loosely-typed value as the record source may deliver it: the Python
values the certificate field and the id fields range over. Mapping keys are
modeled as the strings Python's `str(k)` yields for them. -/
inductive PyVal where
  | none : PyVal
  | bool (b : Bool) : PyVal
  | num (q : ℚ) : PyVal
  | str (s : String) : PyVal
  | list (xs : List PyVal) : PyVal
  | dict (entries : List (String × PyVal)) : PyVal

/-- The external Python library surface used by the feature extractor:
`loads` is `json.loads` (`Option.none` models a raised decode error),
`dumps` is `json.dumps`, and `strOf` is `str(·)` on non-string values. -/
structure PyLib where
  loads : String → Option PyVal
  dumps : PyVal → String
  strOf : PyVal → String

/-- Python's `str(·)`: the identity on strings, the library rendering
otherwise. -/
def pyStr (lib : PyLib) : PyVal → String
  | PyVal.str s => s
  | v => lib.strOf v

/-- Python's `pat in s` substring test. -/
def containsStr (s pat : String) : Bool := 2 ≤ (s.splitOn pat).length

/-- The four derived certificate features (source lines 140-145). -/
structure CertFeatures where
  certificate_count : ℕ
  has_GOTS : Bool
  has_OEKO_TEX : Bool
  has_ISO_14001 : Bool
deriving DecidableEq

/-- The all-false/zero default record `out` (source lines 140-145). -/
def certDefault : CertFeatures :=
  { certificate_count := 0, has_GOTS := false, has_OEKO_TEX := false,
    has_ISO_14001 := false }

/-- The upper-casing and keyword-matching step of the extractor
(source lines 177-182) applied to a list of extracted certificate names. -/
def featuresOfNames (certs : List String) : CertFeatures :=
  { certificate_count := (certs.map String.toUpper).length
    has_GOTS := (certs.map String.toUpper).any (fun c => containsStr c "GOTS")
    has_OEKO_TEX := (certs.map String.toUpper).any
      (fun c => containsStr c "OEKO" || containsStr c "OEKO-TEX" ||
        containsStr c "OEKO_TEX")
    has_ISO_14001 := (certs.map String.toUpper).any
      (fun c => containsStr c "ISO" && containsStr c "14001") }

/-- The name contributed by one element of a decoded certificate list
(source lines 157-166): strings contribute themselves; mappings contribute
their `name` field, else `title` field, else their own JSON serialization;
anything else contributes nothing. -/
def listItemName (lib : PyLib) : PyVal → Option String
  | PyVal.str s => some s
  | PyVal.dict kvs =>
      some (match kvs.lookup "name" with
        | some v => pyStr lib v
        | Option.none =>
            match kvs.lookup "title" with
            | some v => pyStr lib v
            | Option.none => lib.dumps (PyVal.dict kvs))
  | _ => Option.none

/-- The name contributed by one entry of a decoded certificate mapping
(source lines 168-173): the key, unless the value is the boolean `False`. -/
def dictEntryName : String × PyVal → Option String
  | (k, PyVal.bool b) => if b then some k else Option.none
  | (k, _) => some k

/-- The certificate-name collection step (source lines 155-175) on the
decoded value (`Option.none` is a failed decode). -/
def certNames (lib : PyLib) : Option PyVal → List String
  | some (PyVal.list xs) => xs.filterMap (listItemName lib)
  | some (PyVal.dict kvs) => kvs.filterMap dictEntryName
  | some (PyVal.str s) => [s]
  | _ => []

/-- The decode step (source lines 150-153): strings go through `json.loads`
with decode errors mapped to an absent value; everything else is passed
through unchanged. -/
def parsedOf (lib : PyLib) : PyVal → Option PyVal
  | PyVal.str s => lib.loads s
  | v => some v

/-- Embedding of `extract_cert_features` (source lines 133-182). -/
def extract_cert_features (lib : PyLib) (v : PyVal) : CertFeatures :=
  match v with
  | PyVal.none => certDefault
  | w => featuresOfNames (certNames lib (parsedOf lib w))

/-- A library stand-in whose `json.loads` fails on every input — the
behavior of `json.loads` on any input that is not valid JSON, such as the
bare string `GOTS`. -/
def libFailAll : PyLib :=
  { loads := fun _ => Option.none, dumps := fun _ => "", strOf := fun _ => "" }

/-- A library stand-in whose `json.loads` decodes exactly the JSON document
`"GOTS"` (a quoted string literal) to the string `GOTS`, failing elsewhere. -/
def libQuotedGots : PyLib :=
  { loads := fun s =>
      if s = "\"GOTS\"" then some (PyVal.str "GOTS") else Option.none,
    dumps := fun _ => "", strOf := fun _ => "" }

/-- Python truthiness over the modeled values: `None`, `False`, `0`, the
empty string, the empty list and the empty mapping are falsy. -/
def pyTruthy : PyVal → Bool
  | PyVal.none => false
  | PyVal.bool b => b
  | PyVal.num q => decide (q ≠ 0)
  | PyVal.str s => decide (s ≠ "")
  | PyVal.list xs => !xs.isEmpty
  | PyVal.dict kvs => !kvs.isEmpty

/-- Python's short-circuiting `or`: the left operand when truthy, else the
right operand. -/
def pyOr (a b : PyVal) : PyVal := if pyTruthy a then a else b

/-- Entity-key resolution of `process_firmalar` (source line 484):
`row.get("id") or row.get("firma_id") or row.get("pk") or None`
(an absent field reads as `None`). -/
def resolveFirmaId (idv firmaIdv pkv : PyVal) : PyVal :=
  pyOr idv (pyOr firmaIdv (pyOr pkv PyVal.none))

/-- Entity-key resolution of `process_girisimciler` (source line 563):
`row.get("id") or row.get("girisimci_id") or None`. -/
def resolveGirisimciId (idv gidv : PyVal) : PyVal :=
  pyOr idv (pyOr gidv PyVal.none)

/-- The candidate id field values of one firms row. -/
structure FirmaRowIds where
  idv : PyVal
  firma_idv : PyVal
  pkv : PyVal

/-- The entity keys of the prediction rows written by the reconciler loop
(source lines 483-494): one key per row whose resolution is not `None`;
rows resolving to `None` are skipped. -/
def firmaOutKeys (rows : List FirmaRowIds) : List PyVal :=
  rows.filterMap
    (fun r =>
      match resolveFirmaId r.idv r.firma_idv r.pkv with
      | PyVal.none => Option.none
      | v => some v)

/-- One persisted `firma_tahminleme` row; the timestamp is abstracted as a
natural number, entity ids have an arbitrary decidable type. -/
structure FirmaTahminRow (α : Type) where
  firma_id : α
  tahmini_getiri : Option ℚ
  surdurulebilirlik_uyum_puani : Option ℚ
  olusturulma_tarihi : ℕ
deriving DecidableEq

/-- Embedding of `delete_existing_predictions_for_firm` (source lines
370-376): one delete per id in the batch, each removing every stored row
with that `firma_id`. -/
def delete_existing_predictions_for_firm {α : Type} [DecidableEq α]
    (store : List (FirmaTahminRow α)) (ids : List α) :
    List (FirmaTahminRow α) :=
  ids.foldl
    (fun st fid => st.filter (fun r => decide (r.firma_id ≠ fid))) store

/-- Embedding of `insert_firma_predictions` (source lines 379-386): bulk
insert of the computed rows (a no-op on the empty batch). -/
def insert_firma_predictions {α : Type} [DecidableEq α]
    (store rows : List (FirmaTahminRow α)) : List (FirmaTahminRow α) :=
  store ++ rows

/-- The reconciliation step of `process_firmalar` (source lines 496-502):
collect the batch's ids, delete all existing rows for those ids, then
insert the new rows. -/
def firmUpsert {α : Type} [DecidableEq α]
    (store rows : List (FirmaTahminRow α)) : List (FirmaTahminRow α) :=
  if rows.map (fun r => r.firma_id) = [] then store
  else
    insert_firma_predictions
      (delete_existing_predictions_for_firm store
        (rows.map (fun r => r.firma_id)))
      rows

theorem qmin_eq_min : qmin = (min : ℚ → ℚ → ℚ) := by
  funext a b
  unfold qmin
  split
  · exact (min_eq_left (by assumption)).symm
  · exact (min_eq_right (le_of_not_le (by assumption))).symm

theorem qmax_eq_max : qmax = (max : ℚ → ℚ → ℚ) := by
  funext a b
  unfold qmax
  split
  · exact (max_eq_right (by assumption)).symm
  · exact (max_eq_left (le_of_not_le (by assumption))).symm

theorem foldl_min_le_self (vs : List ℚ) (v : ℚ) : vs.foldl min v ≤ v := by
  induction vs generalizing v with
  | nil => simp
  | cons a as ih => exact le_trans (ih (min v a)) (min_le_left _ _)

theorem foldl_min_le_mem (vs : List ℚ) (v x : ℚ) (hx : x ∈ vs) :
    vs.foldl min v ≤ x := by
  induction vs generalizing v with
  | nil => cases hx
  | cons a as ih =>
    rcases List.mem_cons.mp hx with rfl | h
    · exact le_trans (foldl_min_le_self as (min v x)) (min_le_right _ _)
    · exact ih (min v a) h

theorem self_le_foldl_max (vs : List ℚ) (v : ℚ) : v ≤ vs.foldl max v := by
  induction vs generalizing v with
  | nil => simp
  | cons a as ih => exact le_trans (le_max_left _ _) (ih (max v a))

theorem mem_le_foldl_max (vs : List ℚ) (v x : ℚ) (hx : x ∈ vs) :
    x ≤ vs.foldl max v := by
  induction vs generalizing v with
  | nil => cases hx
  | cons a as ih =>
    rcases List.mem_cons.mp hx with rfl | h
    · exact le_trans (le_max_right _ _) (self_le_foldl_max as (max v x))
    · exact ih (max v a) h

/-- Every non-missing value of a column is bounded below by `colMin`. -/
theorem colMin_le (s : NumCol) (mn x : ℚ) (hmn : colMin s = some mn)
    (hx : x ∈ colVals s) : mn ≤ x := by
  unfold colMin at hmn
  rw [qmin_eq_min] at hmn
  rcases h : colVals s with _ | ⟨v, vs⟩
  · rw [h] at hx; cases hx
  · rw [h] at hmn hx
    simp only [Option.some.injEq] at hmn
    subst hmn
    rcases List.mem_cons.mp hx with rfl | hmem
    · exact foldl_min_le_self vs x
    · exact foldl_min_le_mem vs v x hmem

/-- Every non-missing value of a column is bounded above by `colMax`. -/
theorem le_colMax (s : NumCol) (mx x : ℚ) (hmx : colMax s = some mx)
    (hx : x ∈ colVals s) : x ≤ mx := by
  unfold colMax at hmx
  rw [qmax_eq_max] at hmx
  rcases h : colVals s with _ | ⟨v, vs⟩
  · rw [h] at hx; cases hx
  · rw [h] at hmx hx
    simp only [Option.some.injEq] at hmx
    subst hmx
    rcases List.mem_cons.mp hx with rfl | hmem
    · exact self_le_foldl_max vs x
    · exact mem_le_foldl_max vs v x hmem

theorem min_max_series_length (s : NumCol) :
    (min_max_series s).length = s.length := by
  unfold min_max_series
  rcases colMin s with _ | mn <;> rcases colMax s with _ | mx <;>
    simp [List.length_map]
  split <;> simp

theorem map_const_eq_replicate (s : NumCol) (c : Option ℚ) :
    s.map (fun _ => c) = List.replicate s.length c := by
  induction s with
  | nil => rfl
  | cons a as ih => simp [List.replicate_succ, ih]

/-- In the two degenerate branches (column entirely missing, or min = max)
`min_max_series` returns `0.0` at every row. -/
theorem min_max_series_degenerate (s : NumCol)
    (h : colMin s = colMax s ∨ colMin s = none ∨ colMax s = none) :
    min_max_series s = List.replicate s.length (some 0) := by
  unfold min_max_series
  split
  · rename_i mn mx hmn hmx
    split
    · exact map_const_eq_replicate s (some 0)
    · rename_i hne
      exfalso
      rw [hmn, hmx] at h
      rcases h with h | h | h
      · simp only [Option.some.injEq] at h
        exact hne h.symm
      · cases h
      · cases h
  · exact map_const_eq_replicate s (some 0)

/-- Every non-missing output of `min_max_series` lies in `[0, 1]`. -/
theorem min_max_series_unit (s : NumCol) (o : Option ℚ)
    (ho : o ∈ min_max_series s) (y : ℚ) (hy : o = some y) :
    0 ≤ y ∧ y ≤ 1 := by
  unfold min_max_series at ho
  split at ho
  · rename_i mn mx hmn hmx
    split at ho
    · simp only [List.mem_map] at ho
      obtain ⟨_, _, rfl⟩ := ho
      cases hy
      exact ⟨le_refl 0, zero_le_one⟩
    · rename_i hne
      simp only [List.mem_map] at ho
      obtain ⟨o', ho', rfl⟩ := ho
      rcases o' with _ | x
      · cases hy
      · simp only [Option.map_some', Option.some.injEq] at hy
        subst hy
        have hxmem : x ∈ colVals s := List.mem_filterMap.mpr ⟨some x, ho', rfl⟩
        have h1 : mn ≤ x := colMin_le s mn x hmn hxmem
        have h2 : x ≤ mx := le_colMax s mx x hmx hxmem
        have hlt : mn < mx := lt_of_le_of_ne (le_trans h1 h2) (Ne.symm hne)
        have hpos : 0 < mx - mn := sub_pos.mpr hlt
        constructor
        · exact div_nonneg (sub_nonneg.mpr h1) (le_of_lt hpos)
        · rw [div_le_one hpos]
          exact sub_le_sub_right h2 mn
  · simp only [List.mem_map] at ho
    obtain ⟨_, _, rfl⟩ := ho
    cases hy
    exact ⟨le_refl 0, zero_le_one⟩

/-- A non-missing input value yields a non-missing output value at the same
row in every branch of `min_max_series`. -/
theorem min_max_series_getElem (s : NumCol) (i : ℕ) (x : ℚ)
    (h : s[i]? = some (some x)) :
    ∃ y, (min_max_series s)[i]? = some (some y) := by
  unfold min_max_series
  split
  · rename_i mn mx hmn hmx
    split
    · exact ⟨0, by rw [List.getElem?_map, h]; rfl⟩
    · exact ⟨(x - mn) / (mx - mn), by rw [List.getElem?_map, h]; rfl⟩
  · exact ⟨0, by rw [List.getElem?_map, h]; rfl⟩

/-- Positional form: a non-missing input value yields a non-missing output
value in `[0, 1]` at the same row. -/
theorem min_max_series_pos_unit (s : NumCol) (i : ℕ) (x : ℚ)
    (hx : s.getD i none = some x) :
    (min_max_series s).getD i none ≠ none ∧
    0 ≤ ((min_max_series s).getD i none).getD 0 ∧
    ((min_max_series s).getD i none).getD 0 ≤ 1 := by
  have hget : s[i]? = some (some x) := by
    rcases hg : s[i]? with _ | o
    · rw [List.getD_eq_getElem?_getD, hg] at hx
      cases hx
    · rw [List.getD_eq_getElem?_getD, hg] at hx
      simp only [Option.getD_some] at hx
      rw [hx]
  obtain ⟨y, hy⟩ := min_max_series_getElem s i x hget
  have homem : (some y : Option ℚ) ∈ min_max_series s := List.getElem?_mem hy
  have hb := min_max_series_unit s (some y) homem y rfl
  rw [List.getD_eq_getElem?_getD, hy]
  exact ⟨by simp, by simpa using hb.1, by simpa using hb.2⟩

theorem clip0100_eq (x : ℚ) : clip0100 x = min (max x 0) 100 := by
  unfold clip0100
  rw [qmin_eq_min, qmax_eq_max]

theorem clip0100_nonneg (x : ℚ) : 0 ≤ clip0100 x := by
  rw [clip0100_eq]
  exact le_min (le_max_right x 0) (by norm_num)

theorem clip0100_le (x : ℚ) : clip0100 x ≤ 100 := by
  rw [clip0100_eq]
  exact min_le_right _ _

theorem clip0100_zero : clip0100 0 = 0 := by
  rw [clip0100_eq]
  norm_num

theorem clip0100_of_unit (x : ℚ) (h0 : 0 ≤ x) (h1 : x ≤ 100) :
    clip0100 x = x := by
  rw [clip0100_eq, max_eq_left h0, min_eq_left h1]

theorem combineScores_bounds (n : ℕ) (comps : List Component) (x : ℚ)
    (hx : x ∈ combineScores n comps) : 0 ≤ x ∧ x ≤ 100 := by
  unfold combineScores at hx
  obtain ⟨i, _, rfl⟩ := List.mem_map.mp hx
  exact ⟨clip0100_nonneg _, clip0100_le _⟩

theorem compute_sustainability_score_bounds (df : Firms) (x : ℚ)
    (hx : x ∈ compute_sustainability_score df) : 0 ≤ x ∧ x ≤ 100 := by
  unfold compute_sustainability_score at hx
  split at hx
  · rw [List.eq_of_mem_replicate hx]
    norm_num
  · exact combineScores_bounds _ _ _ hx

theorem compute_tahmini_getiri_score_bounds (df : Firms) (sust : List ℚ)
    (x : ℚ) (hx : x ∈ compute_tahmini_getiri_score df sust) :
    0 ≤ x ∧ x ≤ 100 :=
  combineScores_bounds _ _ _ hx

theorem compute_kriter_uyumluluk_puani_bounds (cy : ℚ) (g : Girisimciler)
    (x : ℚ) (hx : x ∈ compute_kriter_uyumluluk_puani cy g) :
    0 ≤ x ∧ x ≤ 100 := by
  unfold compute_kriter_uyumluluk_puani at hx
  split at hx
  · rw [List.eq_of_mem_replicate hx]
    norm_num
  · exact combineScores_bounds _ _ _ hx

theorem valAt_replicate_some_zero (n i : ℕ) :
    valAt (List.replicate n (some 0)) i = 0 := by
  unfold valAt
  rw [List.getD_eq_getElem?_getD, List.getElem?_replicate]
  split <;> rfl

theorem sustainability_all_absent (df : Firms) (h : df.noSignalColumns) :
    compute_sustainability_score df = List.replicate df.n 0 := by
  obtain ⟨h1, h2, h3, h4, h5, h6, h7, h8, _, _, _⟩ := h
  unfold compute_sustainability_score sustainabilityComponents
  rw [h1, h2, h3, h4, h5, h6, h7, h8]
  simp [optComp]

theorem tahmini_all_absent (df : Firms) (h : df.noSignalColumns) :
    compute_tahmini_getiri_score df (compute_sustainability_score df) =
      List.replicate df.n 0 := by
  have hsust := sustainability_all_absent df h
  obtain ⟨_, _, _, _, _, _, _, _, h9, h10, h11⟩ := h
  unfold compute_tahmini_getiri_score tahminiComponents
  rw [h9, h10, h11, hsust]
  have hmap : (List.replicate df.n (0 : ℚ)).map (fun x => some (x / 100)) =
      List.replicate df.n (some 0) := by
    rw [List.map_replicate]
    norm_num
  rw [hmap]
  simp only [optComp, List.nil_append]
  unfold combineScores
  rw [List.eq_replicate_iff]
  refine ⟨by simp, ?_⟩
  intro b hb
  obtain ⟨i, _, rfl⟩ := List.mem_map.mp hb
  unfold combineRow
  simp only [List.foldl]
  rw [valAt_replicate_some_zero]
  norm_num [clip0100_zero]

theorem kriter_all_absent (cy : ℚ) (g : Girisimciler)
    (h : g.noSignalColumns) :
    compute_kriter_uyumluluk_puani cy g = List.replicate g.n 0 := by
  obtain ⟨h1, h2, h3, h4, h5⟩ := h
  unfold compute_kriter_uyumluluk_puani kriterComponents
  rw [h1, h2, h3, h4, h5]
  simp [optComp]

/-- C1: for every working table, each of the three composite scores
(sustainability, expected-return, criteria-compliance) lies in `[0, 100]`
for every row, and when every candidate signal column is absent the score is
exactly `0.0` for every row. -/
theorem C1_composite_score_bounds (df : Firms) (g : Girisimciler)
    (cy x y z : ℚ) :
    (x ∈ compute_sustainability_score df → 0 ≤ x ∧ x ≤ 100) ∧
    (y ∈ compute_tahmini_getiri_score df (compute_sustainability_score df) →
      0 ≤ y ∧ y ≤ 100) ∧
    (z ∈ compute_kriter_uyumluluk_puani cy g → 0 ≤ z ∧ z ≤ 100) ∧
    (df.noSignalColumns →
      compute_sustainability_score df = List.replicate df.n 0 ∧
      compute_tahmini_getiri_score df (compute_sustainability_score df) =
        List.replicate df.n 0) ∧
    (g.noSignalColumns →
      compute_kriter_uyumluluk_puani cy g = List.replicate g.n 0) := by
  refine ⟨fun hx => compute_sustainability_score_bounds df x hx,
    fun hy => compute_tahmini_getiri_score_bounds df _ y hy,
    fun hz => compute_kriter_uyumluluk_puani_bounds cy g z hz,
    fun h => ⟨sustainability_all_absent df h, tahmini_all_absent df h⟩,
    fun h => kriter_all_absent cy g h⟩

/-- Witness for C1 at concrete tables: a revenue-only table produces scores
inside the bounds, and all-absent tables produce the all-zero score lists. -/
theorem C1_composite_score_bounds_witness :
    ((0 : ℚ) ≤ 0 ∧ (0 : ℚ) ≤ 100) ∧
    ((0 : ℚ) ≤ 125 / 2 ∧ (125 / 2 : ℚ) ≤ 100) ∧
    ((0 : ℚ) ≤ 100 ∧ (100 : ℚ) ≤ 100) ∧
    compute_sustainability_score firmsAllAbsent = List.replicate 1 0 ∧
    compute_tahmini_getiri_score firmsAllAbsent
      (compute_sustainability_score firmsAllAbsent) = List.replicate 1 0 ∧
    compute_kriter_uyumluluk_puani 2025 girAllAbsent = List.replicate 1 0 := by
  have hA := C1_composite_score_bounds firmsCiroOnly girYearsOnly 2025 0
    (125 / 2) 100
  have hB := C1_composite_score_bounds firmsAllAbsent girAllAbsent 2025 0 0 0
  have habs : firmsAllAbsent.noSignalColumns :=
    ⟨rfl, rfl, rfl, rfl, rfl, rfl, rfl, rfl, rfl, rfl, rfl⟩
  have gabs : girAllAbsent.noSignalColumns := ⟨rfl, rfl, rfl, rfl, rfl⟩
  exact ⟨hA.1 (by decide!), hA.2.1 (by decide!), hA.2.2.1 (by decide!),
    (hB.2.2.2.1 habs).1, (hB.2.2.2.1 habs).2, hB.2.2.2.2 gabs⟩

/-- C2: min-max normalization sends every row holding a non-missing value to
a (non-missing) value in `[0, 1]`; and when the column is entirely missing,
or its minimum equals its maximum (single distinct value included), or
min/max are undefined, it returns exactly `0.0` for every row. -/
theorem C2_min_max_normalization (s : NumCol) (i : ℕ) (x : ℚ) :
    (s.getD i none = some x →
      (min_max_series s).getD i none ≠ none ∧
      0 ≤ ((min_max_series s).getD i none).getD 0 ∧
      ((min_max_series s).getD i none).getD 0 ≤ 1) ∧
    ((colMin s = colMax s ∨ colMin s = none ∨ colMax s = none) →
      min_max_series s = List.replicate s.length (some 0)) :=
  ⟨min_max_series_pos_unit s i x, min_max_series_degenerate s⟩

/-- Witness for C2 at a concrete column with a missing value, and at a
concrete constant column. -/
theorem C2_min_max_normalization_witness :
    ((min_max_series [some 10, none, some 30]).getD 0 none ≠ none ∧
      0 ≤ ((min_max_series [some 10, none, some 30]).getD 0 none).getD 0 ∧
      ((min_max_series [some 10, none, some 30]).getD 0 none).getD 0 ≤ 1) ∧
    min_max_series [some 5, some 5] = List.replicate 2 (some 0) := by
  have h1 := C2_min_max_normalization [some 10, none, some 30] 0 10
  have h2 := C2_min_max_normalization [some 5, some 5] 0 5
  exact ⟨h1.1 (by decide!), h2.2 (by decide!)⟩

theorem foldl_add_snd (l : List Component) (c : ℚ) :
    l.foldl (fun acc p => acc + p.2) c = c + (l.map Prod.snd).sum := by
  induction l generalizing c with
  | nil => simp
  | cons a tl ih => simp [ih, add_assoc]

theorem foldl_add_num (l : List Component) (i : ℕ) (c : ℚ) :
    l.foldl (fun acc p => acc + p.2 * valAt p.1 i) c =
      c + (l.map (fun p => p.2 * valAt p.1 i)).sum := by
  induction l generalizing c with
  | nil => simp
  | cons a tl ih => simp [ih, add_assoc]

theorem combineRow_eq (comps : List Component) (i : ℕ) :
    combineRow comps i =
      clip0100 (100 * (comps.map (fun p => p.2 * valAt p.1 i)).sum /
        (comps.map Prod.snd).sum) := by
  unfold combineRow
  rw [foldl_add_num, foldl_add_snd]
  congr 1
  ring

theorem optComp_map_sum {γ : Type} (col : Option γ) (t : γ → NumCol) (w : ℚ)
    (f : Component → ℚ) :
    ((optComp col t w).map f).sum = col.elim 0 (fun c => f (t c, w)) := by
  cases col <;> simp [optComp]

theorem optComp_eq_nil {γ : Type} (col : Option γ) (t : γ → NumCol) (w : ℚ) :
    optComp col t w = [] ↔ col = none := by
  cases col <;> simp [optComp]

/-- The code's sustainability score coincides with the spec's re-normalized
weighted average over the present signals. -/
theorem sustainability_eq_spec (df : Firms) :
    compute_sustainability_score df = surdurulebilirlikSpec df := by
  unfold compute_sustainability_score surdurulebilirlikSpec
  have hnil : sustainabilityComponents df = [] ↔
      (df.karbon_ayak_izi = none ∧ df.su_tuketimi = none ∧
        df.atik_miktari = none ∧ df.geri_donusum_orani = none ∧
        df.certificate_count = none ∧ df.has_GOTS = none ∧
        df.has_OEKO_TEX = none ∧ df.has_ISO_14001 = none) := by
    unfold sustainabilityComponents
    simp [List.append_eq_nil, optComp_eq_nil]
  by_cases h : df.karbon_ayak_izi = none ∧ df.su_tuketimi = none ∧
      df.atik_miktari = none ∧ df.geri_donusum_orani = none ∧
      df.certificate_count = none ∧ df.has_GOTS = none ∧
      df.has_OEKO_TEX = none ∧ df.has_ISO_14001 = none
  · rw [if_pos (hnil.mpr h), if_pos h]
  · rw [if_neg (fun hc => h (hnil.mp hc)), if_neg h]
    unfold combineScores
    apply List.map_congr_left
    intro i _
    rw [combineRow_eq]
    unfold sustainabilityComponents surdurulebilirlikSpecNum
      surdurulebilirlikSpecWeight
    simp only [List.map_append, List.sum_append, optComp_map_sum]

/-- The code's criteria-compliance score coincides with the spec's
re-normalized weighted average over the present signals. -/
theorem kriter_eq_spec (cy : ℚ) (g : Girisimciler) :
    compute_kriter_uyumluluk_puani cy g = kriterUyumlulukSpec cy g := by
  unfold compute_kriter_uyumluluk_puani kriterUyumlulukSpec
  have hnil : kriterComponents cy g = [] ↔
      (g.kurulma_yili = none ∧ g.kurulma_tarihi = none ∧
        g.kadin_calisan_sayisi = none ∧ g.engelli_calisan_sayisi = none ∧
        g.talep_edilen_butce = none) := by
    unfold kriterComponents
    rcases g.kurulma_yili with _ | yc
    · rcases g.kurulma_tarihi with _ | tc
      · simp [List.append_eq_nil, optComp_eq_nil]
      · simp [List.append_eq_nil, optComp_eq_nil]
    · simp [List.append_eq_nil, optComp_eq_nil]
  by_cases h : g.kurulma_yili = none ∧ g.kurulma_tarihi = none ∧
      g.kadin_calisan_sayisi = none ∧ g.engelli_calisan_sayisi = none ∧
      g.talep_edilen_butce = none
  · rw [if_pos (hnil.mpr h), if_pos h]
  · rw [if_neg (fun hc => h (hnil.mp hc)), if_neg h]
    unfold combineScores
    apply List.map_congr_left
    intro i _
    rw [combineRow_eq]
    unfold kriterComponents kriterSpecNum kriterSpecWeight
    rcases hy : g.kurulma_yili with _ | yc <;>
      rcases ht : g.kurulma_tarihi with _ | tc <;>
      simp only [List.map_append, List.sum_append, optComp_map_sum,
        List.map_cons, List.map_nil, List.sum_cons, List.sum_nil,
        List.cons_append, List.nil_append] <;>
      (congr 1; ring)

/-- C3: for every composite score the weighted-average denominator is the
sum of the weights of exactly the candidate signals present in the table
(the score equals the spec's re-normalized average); and on a concrete pair
of tables, dropping the carbon column re-normalizes over the remaining
weights — it does not keep the full three-signal denominator. -/
theorem C3_denominator_present_weights (df : Firms) (cy : ℚ)
    (g : Girisimciler) :
    compute_sustainability_score df = surdurulebilirlikSpec df ∧
    compute_kriter_uyumluluk_puani cy g = kriterUyumlulukSpec cy g ∧
    compute_sustainability_score firmsSuAtik = [50, 50] ∧
    surdurulebilirlikSpecWeight firmsSuAtik = 2 ∧
    surdurulebilirlikSpecWeight firmsKarbonSuAtik = 7 / 2 ∧
    clip0100 (100 * surdurulebilirlikSpecNum firmsSuAtik 0 /
      surdurulebilirlikSpecWeight firmsKarbonSuAtik) ≠ 50 :=
  ⟨sustainability_eq_spec df, kriter_eq_spec cy g, by decide!, by decide!,
    by decide!, by decide!⟩

/-- C4: when the label column's numeric coercion yields fewer than 5
non-missing values, the trainer returns no metrics (and an all-missing
prediction series) instead of failing, and the caller's persisted score
columns are exactly the deterministic scorer's outputs. -/
theorem C4_insufficient_labels_fallback (ml : FirmRegressor) (df : Firms)
    (t : NumCol) (hlab : df.label = some t) (hcount : labeledCount t < 5) :
    train_regressor_and_predict ml df t = (List.replicate df.n none, none) ∧
    (processFirmalarScores ml df).2 =
      (compute_tahmini_getiri_score df
        (compute_sustainability_score df)).map some ∧
    (processFirmalarScores ml df).1 = compute_sustainability_score df := by
  have htr : train_regressor_and_predict ml df t =
      (List.replicate df.n none, none) := by
    unfold train_regressor_and_predict
    rw [if_pos hcount]
  refine ⟨htr, ?_, rfl⟩
  simp only [processFirmalarScores, hlab, htr]

/-- Witness for C4 at a concrete 2-row table with a single labeled row. -/
theorem C4_insufficient_labels_fallback_witness :
    train_regressor_and_predict mlZero firmsCiroLabeled [some 1, none] =
      (List.replicate 2 none, none) ∧
    (processFirmalarScores mlZero firmsCiroLabeled).2 =
      [some 0, some (125 / 2)] ∧
    (processFirmalarScores mlZero firmsCiroLabeled).1 = [0, 0] := by
  have h := C4_insufficient_labels_fallback mlZero firmsCiroLabeled
    [some 1, none] rfl (by decide!)
  exact ⟨h.1, h.2.1.trans (by decide!), h.2.2.trans (by decide!)⟩

/-- C9 (amended): per score field the two paths are mutually exclusive —
with no label column the persisted expected-return / criteria-compliance
columns are the deterministic scores (and the trainer plays no part: the
output does not depend on the regressor at all), while with a label column
and at least 5 labeled rows they are the trainer's predictions; but the
firms' sustainability column is always produced by the deterministic scorer,
even when training succeeds. -/
theorem C9_paths_per_field (ml ml' : FirmRegressor) (cy : ℚ)
    (mg : GirRegressor) (df : Firms) (g : Girisimciler) (t tg : NumCol) :
    (df.label = none →
      processFirmalarScores ml df = processFirmalarScores ml' df ∧
      (processFirmalarScores ml df).2 =
        (compute_tahmini_getiri_score df
          (compute_sustainability_score df)).map some) ∧
    (df.label = some t → 5 ≤ labeledCount t →
      (processFirmalarScores ml df).2 = (ml.run df t).1.map some) ∧
    (processFirmalarScores ml df).1 = compute_sustainability_score df ∧
    (g.label = none →
      processGirisimcilerScores cy mg g =
        (compute_kriter_uyumluluk_puani cy g).map some) ∧
    (g.label = some tg → 5 ≤ labeledCount tg →
      processGirisimcilerScores cy mg g = (mg.run g tg).1.map some) := by
  refine ⟨fun hl => ?_, fun hl hc => ?_, rfl, fun hl => ?_, fun hl hc => ?_⟩
  · constructor
    · simp only [processFirmalarScores, hl]
    · simp only [processFirmalarScores, hl]
  · simp only [processFirmalarScores, hl, train_regressor_and_predict,
      if_neg (Nat.not_lt.mpr hc)]
  · simp only [processGirisimcilerScores, hl]
  · simp only [processGirisimcilerScores, hl, train_regressor_and_predict_g,
      if_neg (Nat.not_lt.mpr hc)]

/-- Witness for C9 at concrete tables: a label-free table's output is
regressor-independent and deterministic; a 5-labeled-row table's
expected-return column equals the regressor's predictions. -/
theorem C9_paths_per_field_witness :
    processFirmalarScores mlZero firmsCiroOnly =
      processFirmalarScores mlSeven firmsCiroOnly ∧
    (processFirmalarScores mlSeven firmsGotsLabeled).2 =
      (mlSeven.run firmsGotsLabeled (List.replicate 5 (some 1))).1.map some ∧
    processGirisimcilerScores 2025 mgZero girYearsOnly =
      [some 0, some 100] := by
  have h1 := C9_paths_per_field mlZero mlSeven 2025 mgZero firmsCiroOnly
    girYearsOnly [] []
  have h2 := C9_paths_per_field mlSeven mlSeven 2025 mgZero firmsGotsLabeled
    girAllAbsent (List.replicate 5 (some 1)) []
  exact ⟨(h1.1 rfl).1, h2.2.1 rfl (by decide!),
    (h1.2.2.2.1 rfl).trans (by decide!)⟩

/-- C9 counterexample to the claim as stated: on a concrete table whose
label column has 5 numeric values, training succeeds (metrics are produced
and the expected-return column comes from the regressor), yet a persisted
score field — the sustainability column — is still produced by the
deterministic scorer, with the non-trivial value 100 on every row. -/
theorem C9_counterexample :
    (train_regressor_and_predict mlSeven firmsGotsLabeled
      (List.replicate 5 (some 1))).2 = some ⟨0, 0, 0, 0, 0⟩ ∧
    (processFirmalarScores mlSeven firmsGotsLabeled).2 =
      List.replicate 5 (some 7) ∧
    (processFirmalarScores mlSeven firmsGotsLabeled).1 =
      compute_sustainability_score firmsGotsLabeled ∧
    compute_sustainability_score firmsGotsLabeled =
      List.replicate 5 100 := by
  refine ⟨by decide!, by decide!, rfl, by decide!⟩

/-- C8 (amended): on the spec's end-to-end scenario the sustainability score
is 0 everywhere, the expected-return score of the minimum-revenue row is
exactly `0.0` and strictly less than the maximum-revenue row's, which is
exactly `62.5` (the revenue weight `2.0` over the used weight sum `3.2`,
times 100) — not `100.0`. -/
theorem C8_end_to_end_scenario :
    compute_sustainability_score firmsCiroSix = List.replicate 6 0 ∧
    compute_tahmini_getiri_score firmsCiroSix
      (compute_sustainability_score firmsCiroSix) =
      [0, 25 / 2, 25, 75 / 2, 50, 125 / 2] ∧
    (compute_tahmini_getiri_score firmsCiroSix
      (compute_sustainability_score firmsCiroSix)).getD 0 0 = 0 ∧
    (compute_tahmini_getiri_score firmsCiroSix
      (compute_sustainability_score firmsCiroSix)).getD 0 0 <
      (compute_tahmini_getiri_score firmsCiroSix
        (compute_sustainability_score firmsCiroSix)).getD 5 0 := by
  refine ⟨by decide!, by decide!, by decide!, by decide!⟩

/-- C8 counterexample to the claim as stated: the maximum-revenue row's
expected-return score is `62.5`, not `100.0`. -/
theorem C8_counterexample :
    (compute_tahmini_getiri_score firmsCiroSix
      (compute_sustainability_score firmsCiroSix)).getD 5 0 = 125 / 2 ∧
    (125 / 2 : ℚ) ≠ 100 := by
  refine ⟨by decide!, by decide!⟩

theorem mem_delete_existing {α : Type} [DecidableEq α]
    (ids : List α) (store : List (FirmaTahminRow α)) (r : FirmaTahminRow α) :
    r ∈ delete_existing_predictions_for_firm store ids ↔
      r ∈ store ∧ r.firma_id ∉ ids := by
  induction ids generalizing store with
  | nil => simp [delete_existing_predictions_for_firm]
  | cons a as ih =>
    unfold delete_existing_predictions_for_firm at ih ⊢
    rw [List.foldl_cons, ih]
    simp only [List.mem_filter, decide_eq_true_eq, List.mem_cons]
    constructor
    · rintro ⟨⟨hr, hne⟩, hnot⟩
      exact ⟨hr, fun hc => hc.elim hne hnot⟩
    · rintro ⟨hr, hnot⟩
      exact ⟨⟨hr, fun hc => hnot (Or.inl hc)⟩, fun hc => hnot (Or.inr hc)⟩

theorem filter_delete_existing_eq_nil {α : Type} [DecidableEq α]
    (ids : List α) (store : List (FirmaTahminRow α)) (k : α) (hk : k ∈ ids) :
    (delete_existing_predictions_for_firm store ids).filter
      (fun r => decide (r.firma_id = k)) = [] := by
  rw [List.filter_eq_nil_iff]
  intro r hr
  obtain ⟨_, hnot⟩ := (mem_delete_existing ids store r).mp hr
  simp only [decide_eq_true_eq]
  intro heq
  exact hnot (heq ▸ hk)

theorem firmUpsert_filter {α : Type} [DecidableEq α]
    (store b : List (FirmaTahminRow α)) (k : α)
    (hk : k ∈ b.map (fun r => r.firma_id)) :
    (firmUpsert store b).filter (fun r => decide (r.firma_id = k)) =
      b.filter (fun r => decide (r.firma_id = k)) := by
  unfold firmUpsert insert_firma_predictions
  have hne : b.map (fun r => r.firma_id) ≠ [] := by
    intro h
    rw [h] at hk
    cases hk
  rw [if_neg hne, List.filter_append,
    filter_delete_existing_eq_nil _ _ _ hk, List.nil_append]

theorem mem_firmUpsert {α : Type} [DecidableEq α]
    (store b : List (FirmaTahminRow α)) (r : FirmaTahminRow α) :
    r ∈ firmUpsert store b ↔
      r ∈ b ∨ (r ∈ store ∧ r.firma_id ∉ b.map (fun x => x.firma_id)) := by
  unfold firmUpsert insert_firma_predictions
  by_cases hb : b.map (fun x => x.firma_id) = []
  · rw [if_pos hb]
    rw [List.map_eq_nil_iff] at hb
    subst hb
    simp
  · rw [if_neg hb]
    rw [List.mem_append, mem_delete_existing]
    tauto

theorem length_filter_key {α : Type} [DecidableEq α]
    (b : List (FirmaTahminRow α)) (k : α)
    (hnd : (b.map (fun r => r.firma_id)).Nodup)
    (hk : k ∈ b.map (fun r => r.firma_id)) :
    (b.filter (fun r => decide (r.firma_id = k))).length = 1 := by
  induction b with
  | nil => simp at hk
  | cons r rs ih =>
    rw [List.map_cons, List.nodup_cons] at hnd
    rw [List.map_cons, List.mem_cons] at hk
    by_cases hkr : r.firma_id = k
    · rw [List.filter_cons_of_pos (by simpa using hkr)]
      have hnil : rs.filter (fun x => decide (x.firma_id = k)) = [] := by
        rw [List.filter_eq_nil_iff]
        intro x hx
        simp only [decide_eq_true_eq]
        intro heq
        exact hnd.1 (by
          rw [← hkr] at heq
          exact heq ▸ List.mem_map_of_mem (fun y => y.firma_id) hx)
      rw [hnil]
      rfl
    · rw [List.filter_cons_of_neg (by simpa using hkr)]
      rcases hk with hk | hk
      · exact absurd hk.symm hkr
      · exact ih hnd.2 hk

/-- C5: the reconciler deletes every stored row whose id appears in the
batch before inserting, so after one run — and after two successive runs on
identical source data (same id set, distinct ids) — the store holds exactly
one row per batch id, and after the second run that row is the second
batch's row. -/
theorem C5_delete_then_insert_upsert {α : Type} [DecidableEq α]
    (store b1 b2 : List (FirmaTahminRow α)) (r : FirmaTahminRow α) (k : α)
    (hids : b1.map (fun x => x.firma_id) = b2.map (fun x => x.firma_id))
    (hnd : (b2.map (fun x => x.firma_id)).Nodup)
    (hk : k ∈ b2.map (fun x => x.firma_id)) :
    (r ∈ firmUpsert store b1 ↔
      r ∈ b1 ∨ (r ∈ store ∧ r.firma_id ∉ b1.map (fun x => x.firma_id))) ∧
    (firmUpsert store b1).filter (fun x => decide (x.firma_id = k)) =
      b1.filter (fun x => decide (x.firma_id = k)) ∧
    ((firmUpsert store b1).filter (fun x => decide (x.firma_id = k))).length
      = 1 ∧
    (firmUpsert (firmUpsert store b1) b2).filter
      (fun x => decide (x.firma_id = k)) =
      b2.filter (fun x => decide (x.firma_id = k)) ∧
    ((firmUpsert (firmUpsert store b1) b2).filter
      (fun x => decide (x.firma_id = k))).length = 1 := by
  have hk1 : k ∈ b1.map (fun x => x.firma_id) := by
    rw [hids]
    exact hk
  have hnd1 : (b1.map (fun x => x.firma_id)).Nodup := by
    rw [hids]
    exact hnd
  refine ⟨mem_firmUpsert store b1 r, firmUpsert_filter store b1 k hk1, ?_,
    firmUpsert_filter (firmUpsert store b1) b2 k hk, ?_⟩
  · rw [firmUpsert_filter store b1 k hk1]
    exact length_filter_key b1 k hnd1 hk1
  · rw [firmUpsert_filter (firmUpsert store b1) b2 k hk]
    exact length_filter_key b2 k hnd hk

/-- Witness for C5 on a concrete store of integer-keyed rows and two
identical-id batches with refreshed timestamps. -/
theorem C5_delete_then_insert_upsert_witness :
    ((⟨1, some 10, some 20, 1⟩ : FirmaTahminRow ℤ) ∈
        firmUpsert [⟨1, some 5, some 5, 0⟩]
          [⟨1, some 10, some 20, 1⟩, ⟨2, some 30, some 40, 1⟩] ↔
      (⟨1, some 10, some 20, 1⟩ : FirmaTahminRow ℤ) ∈
          [(⟨1, some 10, some 20, 1⟩ : FirmaTahminRow ℤ),
            ⟨2, some 30, some 40, 1⟩] ∨
        ((⟨1, some 10, some 20, 1⟩ : FirmaTahminRow ℤ) ∈
            [(⟨1, some 5, some 5, 0⟩ : FirmaTahminRow ℤ)] ∧
          (1 : ℤ) ∉ [(1 : ℤ), 2])) ∧
    (firmUpsert [(⟨1, some 5, some 5, 0⟩ : FirmaTahminRow ℤ)]
        [⟨1, some 10, some 20, 1⟩, ⟨2, some 30, some 40, 1⟩]).filter
      (fun x => decide (x.firma_id = 1)) = [⟨1, some 10, some 20, 1⟩] ∧
    (firmUpsert
        (firmUpsert [(⟨1, some 5, some 5, 0⟩ : FirmaTahminRow ℤ)]
          [⟨1, some 10, some 20, 1⟩, ⟨2, some 30, some 40, 1⟩])
        [⟨1, some 11, some 21, 2⟩, ⟨2, some 31, some 41, 2⟩]).filter
      (fun x => decide (x.firma_id = 1)) = [⟨1, some 11, some 21, 2⟩] := by
  have h := C5_delete_then_insert_upsert
    [(⟨1, some 5, some 5, 0⟩ : FirmaTahminRow ℤ)]
    [⟨1, some 10, some 20, 1⟩, ⟨2, some 30, some 40, 1⟩]
    [⟨1, some 11, some 21, 2⟩, ⟨2, some 31, some 41, 2⟩]
    ⟨1, some 10, some 20, 1⟩ 1 (by decide!) (by decide!) (by decide!)
  refine ⟨?_, h.2.1.trans (by decide!), h.2.2.2.1.trans (by decide!)⟩
  have hmap : ([⟨1, some 10, some 20, 1⟩,
      (⟨2, some 30, some 40, 1⟩ : FirmaTahminRow ℤ)].map
        (fun x => x.firma_id)) = [(1 : ℤ), 2] := by decide!
  rw [← hmap]
  exact h.1

/-- C6: the certificate feature extractor returns the four-field record on
every input and never fails; a decode error yields the all-false/zero
default, and `extract(null)` is exactly that default. -/
theorem C6_extractor_total_default (lib : PyLib) (s : String) :
    extract_cert_features lib PyVal.none = certDefault ∧
    (lib.loads s = Option.none →
      extract_cert_features lib (PyVal.str s) = certDefault) := by
  refine ⟨rfl, fun h => ?_⟩
  show featuresOfNames (certNames lib (parsedOf lib (PyVal.str s))) =
    certDefault
  rw [show parsedOf lib (PyVal.str s) = lib.loads s from rfl, h]
  rfl

/-- Witness for C6 with a concrete failing decoder and input string. -/
theorem C6_extractor_total_default_witness :
    extract_cert_features libFailAll PyVal.none = certDefault ∧
    extract_cert_features libFailAll (PyVal.str "certified organic") =
      certDefault := by
  have h := C6_extractor_total_default libFailAll "certified organic"
  exact ⟨h.1, h.2 rfl⟩

/-- C7 (amended): on a string input whose JSON decode fails the extractor
always falls through to the all-false/zero defaults — the raw string never
contributes a certificate name; a string contributes a single certificate
name only when decoding succeeds and yields a (JSON) string. -/
theorem C7_string_decode_fallback (lib : PyLib) (s t : String) :
    (lib.loads s = Option.none →
      extract_cert_features lib (PyVal.str s) = certDefault) ∧
    (lib.loads s = some (PyVal.str t) →
      extract_cert_features lib (PyVal.str s) = featuresOfNames [t]) := by
  constructor
  · intro h
    show featuresOfNames (certNames lib (parsedOf lib (PyVal.str s))) =
      certDefault
    rw [show parsedOf lib (PyVal.str s) = lib.loads s from rfl, h]
    rfl
  · intro h
    show featuresOfNames (certNames lib (parsedOf lib (PyVal.str s))) =
      featuresOfNames [t]
    rw [show parsedOf lib (PyVal.str s) = lib.loads s from rfl, h]
    rfl

/-- Witness for C7: the JSON document `"GOTS"` (quoted) decodes to a string
and contributes one matching name, while the bare string `GOTS` fails to
decode and yields the defaults. -/
theorem C7_string_decode_fallback_witness :
    extract_cert_features libQuotedGots (PyVal.str "\"GOTS\"") =
      featuresOfNames ["GOTS"] ∧
    extract_cert_features libQuotedGots (PyVal.str "GOTS") = certDefault ∧
    (featuresOfNames ["GOTS"]).certificate_count = 1 ∧
    (featuresOfNames ["GOTS"]).has_GOTS = true := by
  have h1 := C7_string_decode_fallback libQuotedGots "\"GOTS\"" "GOTS"
  have h2 := C7_string_decode_fallback libQuotedGots "GOTS" "GOTS"
  refine ⟨h1.2 rfl, h2.1 ?_, by decide!, by decide!⟩
  show (if ("GOTS" : String) = "\"GOTS\"" then some (PyVal.str "GOTS")
    else Option.none) = Option.none
  rw [if_neg (by decide!)]

theorem truthy_ne_none (a : PyVal) (h : pyTruthy a = true) :
    a ≠ PyVal.none := by
  intro he
  rw [he] at h
  cases h

theorem resolveFirmaId_eq_none_iff (a b c : PyVal) :
    resolveFirmaId a b c = PyVal.none ↔
      pyTruthy a = false ∧ pyTruthy b = false ∧ pyTruthy c = false := by
  unfold resolveFirmaId pyOr
  by_cases ha : pyTruthy a = true
  · rw [if_pos ha]
    constructor
    · intro h
      exact absurd h (truthy_ne_none a ha)
    · rintro ⟨h1, _, _⟩
      rw [ha] at h1
      cases h1
  · rw [if_neg ha, Bool.not_eq_true] at *
    by_cases hb : pyTruthy b = true
    · rw [if_pos hb]
      constructor
      · intro h
        exact absurd h (truthy_ne_none b hb)
      · rintro ⟨_, h2, _⟩
        rw [hb] at h2
        cases h2
    · rw [Bool.not_eq_true] at hb
      rw [hb, if_neg (by simp)]
      by_cases hc : pyTruthy c = true
      · rw [if_pos hc]
        constructor
        · intro h
          exact absurd h (truthy_ne_none c hc)
        · rintro ⟨_, _, h3⟩
          rw [hc] at h3
          cases h3
      · rw [Bool.not_eq_true] at hc
        rw [hc, if_neg (by simp)]
        exact ⟨fun _ => ⟨ha, rfl, rfl⟩, fun _ => rfl⟩

theorem resolveGirisimciId_eq_none_iff (a b : PyVal) :
    resolveGirisimciId a b = PyVal.none ↔
      pyTruthy a = false ∧ pyTruthy b = false := by
  unfold resolveGirisimciId pyOr
  by_cases ha : pyTruthy a = true
  · rw [if_pos ha]
    constructor
    · intro h
      exact absurd h (truthy_ne_none a ha)
    · rintro ⟨h1, _⟩
      rw [ha] at h1
      cases h1
  · rw [Bool.not_eq_true] at ha
    rw [ha, if_neg (by simp)]
    by_cases hb : pyTruthy b = true
    · rw [if_pos hb]
      constructor
      · intro h
        exact absurd h (truthy_ne_none b hb)
      · rintro ⟨_, h2⟩
        rw [hb] at h2
        cases h2
    · rw [Bool.not_eq_true] at hb
      rw [hb, if_neg (by simp)]
      exact ⟨fun _ => ⟨rfl, rfl⟩, fun _ => rfl⟩

/-- C10: the reconciler's key resolution treats every falsy candidate id
value (`0`, the empty string, `False`, `None`) as absent: resolution yields
the first truthy candidate and falls through past falsy ones, a row whose
candidate id fields are all falsy resolves to `None`, and such a row is
skipped — it contributes no prediction row — even when an id field is
present holding a value such as `0`. -/
theorem C10_falsy_ids_skipped (a b c : PyVal) (r : FirmaRowIds)
    (rows : List FirmaRowIds) :
    (resolveFirmaId a b c = PyVal.none ↔
      pyTruthy a = false ∧ pyTruthy b = false ∧ pyTruthy c = false) ∧
    (pyTruthy a = true → resolveFirmaId a b c = a) ∧
    (pyTruthy a = false → pyTruthy b = true → resolveFirmaId a b c = b) ∧
    (pyTruthy a = false → pyTruthy b = false → pyTruthy c = true →
      resolveFirmaId a b c = c) ∧
    (resolveFirmaId r.idv r.firma_idv r.pkv = PyVal.none →
      firmaOutKeys (r :: rows) = firmaOutKeys rows) ∧
    (resolveGirisimciId a b = PyVal.none ↔
      pyTruthy a = false ∧ pyTruthy b = false) ∧
    pyTruthy (PyVal.num 0) = false ∧
    pyTruthy (PyVal.str "") = false ∧
    pyTruthy (PyVal.bool false) = false := by
  refine ⟨resolveFirmaId_eq_none_iff a b c, fun ha => ?_, fun ha hb => ?_,
    fun ha hb hc => ?_, fun h => ?_, resolveGirisimciId_eq_none_iff a b,
    by decide!, by decide!, rfl⟩
  · unfold resolveFirmaId pyOr
    rw [if_pos ha]
  · unfold resolveFirmaId pyOr
    rw [ha, if_neg (by simp), if_pos hb]
  · unfold resolveFirmaId pyOr
    rw [ha, hb, if_neg (by simp), if_neg (by simp), if_pos hc]
  · simp [firmaOutKeys, List.filterMap_cons, h]

/-- Witness for C10: a row whose `id` field holds `0`, `firma_id` holds the
empty string and `pk` holds `False` resolves to `None` and is skipped, while
a truthy first candidate is taken as the key. -/
theorem C10_falsy_ids_skipped_witness :
    resolveFirmaId (PyVal.num 0) (PyVal.str "") (PyVal.bool false) =
      PyVal.none ∧
    resolveFirmaId (PyVal.num 2) (PyVal.str "") (PyVal.bool false) =
      PyVal.num 2 ∧
    firmaOutKeys [⟨PyVal.num 0, PyVal.str "", PyVal.bool false⟩] = [] ∧
    resolveGirisimciId (PyVal.num 0) (PyVal.str "") = PyVal.none := by
  have h0 := C10_falsy_ids_skipped (PyVal.num 0) (PyVal.str "")
    (PyVal.bool false) ⟨PyVal.num 0, PyVal.str "", PyVal.bool false⟩ []
  have h2 := C10_falsy_ids_skipped (PyVal.num 2) (PyVal.str "")
    (PyVal.bool false) ⟨PyVal.num 0, PyVal.str "", PyVal.bool false⟩ []
  have hres : resolveFirmaId (PyVal.num 0) (PyVal.str "")
      (PyVal.bool false) = PyVal.none :=
    h0.1.mpr ⟨by decide!, by decide!, rfl⟩
  exact ⟨hres, h2.2.1 (by decide!), (h0.2.2.2.2.1 hres).trans rfl,
    h0.2.2.2.2.2.1.mpr ⟨by decide!, by decide!⟩⟩

/-- C7 counterexample to the claim as stated: `json.loads` fails on the bare
string `GOTS` (which is perfectly usable as a single certificate name — as a
name it would count 1 and match GOTS), yet the extractor returns the
all-false/zero defaults, not a one-certificate record. -/
theorem C7_counterexample :
    extract_cert_features libFailAll (PyVal.str "GOTS") = certDefault ∧
    (extract_cert_features libFailAll (PyVal.str "GOTS")).certificate_count
      = 0 ∧
    (extract_cert_features libFailAll (PyVal.str "GOTS")).has_GOTS = false ∧
    (featuresOfNames ["GOTS"]).certificate_count = 1 ∧
    (featuresOfNames ["GOTS"]).has_GOTS = true := by
  refine ⟨rfl, rfl, rfl, by decide!, by decide!⟩

end KdsMl
